import Mathlib

/-!
Verification of the Simple IoT store service (store/store.go) against its
natural-language specification.  The store service, its message handlers and
the rule/notification fan-out logic are embedded shallowly below; the parts of
the repository that the store service calls into but whose source is not part
of the store file (the embedded key-value layer `Db`, the `data` package
helpers, `ruleProcessPoints` from rules.go, NATS/protobuf decoding) are
modelled from the specification and marked as such in their doc comments.
-/

namespace SimpleIoT

/-- A telemetry sample: `data.Point` (time, type, key, value, text, tombstone).
The Go `Value` is a float64; only equality with zero matters in the embedded
code, so it is carried as an `Int` here. -/
structure Point where
  time : Nat
  typ : String
  key : String
  value : Int
  text : String
  tombstone : Nat
deriving DecidableEq, Repr

/-- A parent→child relation with its own point set: `data.Edge`
(`Up` = parent id, `Down` = child id). -/
structure Edge where
  up : String
  down : String
  points : List Point
deriving DecidableEq, Repr

/-- A node record: `data.Node` (id, type, points). -/
structure Node where
  id : String
  typ : String
  points : List Point
deriving DecidableEq, Repr

/-- A node viewed through one parent edge: `data.NodeEdge`. -/
structure NodeEdge where
  id : String
  typ : String
  parent : String
  points : List Point
  edgePoints : List Point
deriving DecidableEq, Repr

/-- Modelled from the spec: `data.Points.Find(type, key)` returns the point
slot identified by `(type, key)`; point lists are slot-unique by merge. -/
def pointsFind (ps : List Point) (t k : String) : Option Point :=
  ps.find? (fun p => p.typ == t && p.key == k)

/-- Text of the `(t, "")` point slot, empty when absent. -/
def pointText (ps : List Point) (t : String) : String :=
  match pointsFind ps t "" with
  | none => ""
  | some p => p.text

def nodeTypeDevice : String := "device"
def nodeTypeGroup : String := "group"
def nodeTypeUser : String := "user"
def nodeTypeRule : String := "rule"
def nodeTypeCondition : String := "condition"
def nodeTypeAction : String := "action"
def nodeTypeActionInactive : String := "actionInactive"
def nodeTypeMsgService : String := "msgService"
def nodeTypeDb : String := "db"
def nodeTypeJWT : String := "jwt"
def pointTypeTombstone : String := "tombstone"
def pointTypeEmail : String := "email"
def pointTypePhone : String := "phone"
def pointTypePass : String := "pass"
def pointTypeDescription : String := "description"
def pointTypeToken : String := "token"
def pointTypeNodeType : String := "nodeType"
def pointTypeService : String := "service"
def pointValueTwilio : String := "twilio"

/-- Modelled from the spec: a `tombstone`-typed point with non-zero value
marks logical deletion of the carrying entity. -/
def pointsTombstone (ps : List Point) : Bool :=
  match pointsFind ps pointTypeTombstone "" with
  | none => false
  | some p => p.value != 0

/-- Modelled from the spec: `data.Edge.IsTombstone`. -/
def Edge.isTombstone (e : Edge) : Bool := pointsTombstone e.points

/-- Modelled from the spec: `data.NodeEdge.IsTombstone` (tombstone flag of
the edge the node is viewed through). -/
def NodeEdge.isTombstone (ne : NodeEdge) : Bool := pointsTombstone ne.edgePoints

/-- Embeds `data.Node.ToNodeEdge(edge)`: view a node through a parent edge. -/
def Node.toNodeEdge (n : Node) (e : Edge) : NodeEdge :=
  ⟨n.id, n.typ, e.up, n.points, e.points⟩

/-- Embeds `data.NodeEdge.ToNode()`. -/
def NodeEdge.toNode (ne : NodeEdge) : Node := ⟨ne.id, ne.typ, ne.points⟩

/-- Modelled from the spec: the embedded key-value store behind the store
service (`store.Db`, not part of the store service file).  `writeFail`
injects the underlying KV failure (`ErrStoreIO`) that a write may report. -/
structure Db where
  nodes : List Node
  edges : List Edge
  writeFail : Option String
deriving DecidableEq, Repr

/-- Modelled from the spec: `Db.node(id)` read. -/
def Db.node (db : Db) (id : String) : Option Node :=
  db.nodes.find? (fun n => n.id == id)

/-- Modelled from the spec: `EdgesUp(id, includeTombstoned)` — parent edges
of a node. -/
def Db.edgeUp (db : Db) (id : String) (includeTombstone : Bool) : List Edge :=
  db.edges.filter (fun e => e.down == id && (includeTombstone || !e.isTombstone))

/-- Modelled from the spec: one level of `Descendants` — children of `id`
filtered by node type when non-empty, omitting tombstoned unless requested,
recursing (fuel-bounded) when `recursive`. -/
def descHelper (db : Db) : Nat → String → String → Bool → Bool → List NodeEdge
  | 0, _, _, _, _ => []
  | fuel+1, id, typ, recursive, includeTombstone =>
    (db.edges.filter (fun e => e.up == id)).foldr
      (fun e acc =>
        (match db.node e.down with
         | none => []
         | some n =>
           let ne := n.toNodeEdge e
           let keep := (typ == "" || n.typ == typ)
             && (includeTombstone || !ne.isTombstone)
           (if keep then [ne] else [])
             ++ (if recursive then
                   descHelper db fuel e.down typ recursive includeTombstone
                 else [])) ++ acc) []

/-- Modelled from the spec: `Db.nodeDescendents(id, typeFilter, recursive,
includeTombstoned)`. -/
def Db.nodeDescendents (db : Db) (id typ : String)
    (recursive includeTombstone : Bool) : List NodeEdge :=
  descHelper db (db.edges.length + 1) id typ recursive includeTombstone

def errDocumentNotFound : String := "document not found"
def errCycle : String := "cycle detected"

/-- Modelled from the spec: cycle guard — starting from the proposed child,
DFS downward; the write is rejected when the proposed parent is reachable. -/
def reachableFrom (db : Db) : Nat → String → String → Bool
  | 0, start, target => start == target
  | fuel+1, start, target =>
    start == target
      || (db.edges.filter (fun e => e.up == start)).any
           (fun e => reachableFrom db fuel e.down target)

/-- LWW merge of one point into a slot-unique point list: strictly greater
time replaces, equal or smaller time keeps the existing point. -/
def pointsMerge (existing : List Point) (p : Point) : List Point :=
  match pointsFind existing p.typ p.key with
  | none => existing ++ [p]
  | some q =>
    if q.time < p.time then
      existing.map (fun r => if r.typ == p.typ && r.key == p.key then p else r)
    else existing

/-- Modelled from the spec: `Db.nodePoints` — merge points into a node,
creating the node record if absent (type inferred from a co-submitted
`nodeType` point, defaulting to `device`). -/
def Db.nodePoints (db : Db) (id : String) (pts : List Point) :
    Except String Db :=
  match db.writeFail with
  | some e => .error e
  | none =>
    match db.node id with
    | some _ =>
      .ok { db with nodes := (db.nodes.map
              (fun n => if n.id == id then
                 { n with points := pts.foldl pointsMerge n.points } else n)) }
    | none =>
      let typ := match pointsFind pts pointTypeNodeType "" with
        | some p => p.text
        | none => nodeTypeDevice
      .ok { db with nodes := db.nodes ++ [⟨id, typ, pts.foldl pointsMerge []⟩] }

/-- Modelled from the spec: `Db.edgePoints` — merge edge points, creating
the edge when first written, asserting no cycle. -/
def Db.edgePoints (db : Db) (nodeID parentID : String) (pts : List Point) :
    Except String Db :=
  match db.writeFail with
  | some e => .error e
  | none =>
    if reachableFrom db (db.edges.length + 1) nodeID parentID then
      .error errCycle
    else
      match db.edges.find? (fun e => e.down == nodeID && e.up == parentID) with
      | some _ =>
        .ok { db with edges := (db.edges.map
                (fun e => if e.down == nodeID && e.up == parentID then
                   { e with points := pts.foldl pointsMerge e.points } else e)) }
      | none =>
        .ok { db with edges :=
                db.edges ++ [⟨parentID, nodeID, pts.foldl pointsMerge []⟩] }

/-- Modelled from the spec: `Db.nodeEdge(id, parent)` read; `"all"` returns
the node through each of its parent edges. -/
def Db.nodeEdge (db : Db) (id parent : String) :
    Except String (List NodeEdge) :=
  match db.node id with
  | none => .error errDocumentNotFound
  | some n =>
    if parent == "all" then
      let ups := db.edges.filter (fun e => e.down == id)
      .ok (if ups.isEmpty then [n.toNodeEdge ⟨"", id, []⟩]
           else ups.map (fun e => n.toNodeEdge e))
    else
      match db.edges.find? (fun e => e.down == id && e.up == parent) with
      | none => .ok [n.toNodeEdge ⟨parent, id, []⟩]
      | some e => .ok [n.toNodeEdge e]

/-- Modelled from the spec: `Db.userCheck(email, pass)` — lookup of
user-typed nodes whose email and pass points match. -/
def Db.userCheck (db : Db) (email pass : String) : List NodeEdge :=
  (db.nodes.filter (fun n => n.typ == nodeTypeUser
     && pointText n.points pointTypeEmail == email
     && pointText n.points pointTypePass == pass)).map
    (fun n => n.toNodeEdge ⟨"", n.id, []⟩)

/-- Modelled from the spec: `data.Rule` — a rule node with its `condition`,
`action` and `actionInactive` children collections. -/
structure Rule where
  id : String
  conditions : List NodeEdge
  actions : List NodeEdge
  actionsInactive : List NodeEdge
deriving DecidableEq, Repr

/-- Modelled from the spec: `data.NodeToRule` projects a rule node and its
children collections into a typed view. -/
def nodeToRule (ruleNode : NodeEdge)
    (conditionNodes actionNodes actionInactiveNodes : List NodeEdge) : Rule :=
  ⟨ruleNode.id, conditionNodes, actionNodes, actionInactiveNodes⟩

/-- Modelled from the spec: `data.User` as projected by `data.NodeToUser`
(id plus the `email` and `phone` contact points). -/
structure User where
  id : String
  email : String
  phone : String
deriving DecidableEq, Repr

/-- Modelled from the spec: `data.NodeToUser`. -/
def nodeToUser (n : Node) : User :=
  ⟨n.id, pointText n.points pointTypeEmail, pointText n.points pointTypePhone⟩

/-- Embeds `data.Message`: the record synthesized per notified user. -/
structure Message where
  id : String
  userID : String
  parentID : String
  notificationID : String
  email : String
  phone : String
  subject : String
  message : String
deriving DecidableEq, Repr

/-- Embeds `data.Notification` (the fields the store service reads). -/
structure Notification where
  id : String
  parent : String
  subject : String
  message : String
deriving DecidableEq, Repr

/-- Modelled from the spec: `data.MsgService` as projected by
`data.NodeToMsgService`. -/
structure MsgService where
  service : String
  sid : String
  authTok : String
  fromNumber : String
deriving DecidableEq, Repr

/-- Modelled from the spec: `data.NodeToMsgService`. -/
def nodeToMsgService (n : Node) : MsgService :=
  ⟨pointText n.points pointTypeService, "", "", ""⟩

/-- The store service state together with its collaborators that live outside
the store service file: `ruleProcessPoints` (rules.go) computes
`(active, changed, err)` for a rule — comparing the new activation with the
stored `active` point — `newUUID` is the `uuid.New()` supply (indexed by the
number of draws so far) and `newToken` is the `NewTokener` used by auth.
All three are modelled from the spec. -/
structure StoreModel where
  db : Db
  ruleProcessPoints : Rule → String → List Point → Bool × Bool × Option String
  newUUID : Nat → String
  newToken : String → Except String String

/-- The outward-visible actions a handler performs, in program order:
NATS publishes (replies), rule action dispatch and reset (`ruleRunActions` /
`ruleRunInactiveActions`, modelled from the spec), point forwarding to a
database sink, `client.SendEdgePoint`, message publication on
`node.<userID>.msg`, and outbound SMS. -/
inductive Effect where
  | publish (subject payload : String)
  | runActions (ruleID : String) (actions : List NodeEdge) (source : String)
  | resetActions (actions : List NodeEdge)
  | influxWrite (dbID nodeID nodeDesc : String) (points : List Point)
  | sendEdgePoint (down up : String) (p : Point)
  | sendMessage (userID : String) (m : Message)
  | smsSend (phone text : String)
deriving DecidableEq, Repr

/-- Embeds `Store.reply`: publish the reply only when a reply subject is present;
an empty string acknowledges, a non-empty string is the error description. -/
def replyEff (subject payload : String) : List Effect :=
  if subject == "" then [] else [Effect.publish subject payload]

/-- The rule view `processRuleNode` constructs from the rule node's
`condition`, `action` and `actionInactive` descendants. -/
def ruleOf (st : StoreModel) (ruleNode : NodeEdge) : Rule :=
  nodeToRule ruleNode
    (st.db.nodeDescendents ruleNode.id nodeTypeCondition false false)
    (st.db.nodeDescendents ruleNode.id nodeTypeAction false false)
    (st.db.nodeDescendents ruleNode.id nodeTypeActionInactive false false)

/-- Embeds `Store.processRuleNode` (store.go): build the rule from its
children collections, evaluate it, and on an activation edge run one action
collection and reset the other. -/
def processRuleNode (st : StoreModel) (ruleNode : NodeEdge)
    (sourceNodeID : String) (points : List Point) : List Effect :=
  let rule := ruleOf st ruleNode
  let r := st.ruleProcessPoints rule sourceNodeID points
  let active := r.1
  let changed := r.2.1
  if active && changed then
    [Effect.runActions rule.id rule.actions sourceNodeID,
     Effect.resetActions rule.actionsInactive]
  else if !active && changed then
    [Effect.runActions rule.id rule.actionsInactive sourceNodeID,
     Effect.resetActions rule.actions]
  else []

/-- The rule loop of `processPointsUpstream`, in iteration order. -/
def processRules (st : StoreModel) (ruleNodes : List NodeEdge)
    (sourceNodeID : String) (points : List Point) : List Effect :=
  ruleNodes.foldr
    (fun rn acc => processRuleNode st rn sourceNodeID points ++ acc) []

/-- The tombstone-clearing edge point written by the orphan repair
(`data.Point{Type: tombstone, Value: 0}`). -/
def tombstoneClearPoint : Point := ⟨0, pointTypeTombstone, "", 0, "", 0⟩

/-- Embeds `Store.processPointsUpstream` (store.go): run descendant rules,
forward to database sinks, repair an orphaned device node when processing the
source node itself, then recurse through every parent edge (tombstoned ones
included).  The Go recursion carries no depth bound; `fuel` makes it total. -/
def processPointsUpstream (st : StoreModel) :
    Nat → String → String → String → List Point → List Effect
  | 0, _, _, _, _ => []
  | fuel+1, currentNodeID, nodeID, nodeDesc, points =>
    let ruleNodes := st.db.nodeDescendents currentNodeID nodeTypeRule false false
    let ruleEffs := processRules st ruleNodes nodeID points
    let dbNodes := st.db.nodeDescendents currentNodeID nodeTypeDb false false
    let dbEffs := dbNodes.map
      (fun dn => Effect.influxWrite dn.id nodeID nodeDesc points)
    let edges := st.db.edgeUp currentNodeID true
    let repairEffs :=
      if currentNodeID == nodeID then
        match st.db.node nodeID with
        | none => []
        | some node =>
          if node.typ == nodeTypeDevice then
            if edges.any (fun e => !e.isTombstone) then []
            else
              match edges with
              | [] => [Effect.sendEdgePoint nodeID "none" tombstoneClearPoint]
              | e :: _ => [Effect.sendEdgePoint e.down e.up tombstoneClearPoint]
          else []
      else []
    ruleEffs ++ dbEffs ++ repairEffs
      ++ edges.foldr
           (fun e acc =>
             processPointsUpstream st fuel e.up nodeID nodeDesc points ++ acc) []

/-- Incoming `node.<id>.points` message; `decoded` is the outcome of
`client.DecodeNodePointsMsg` (modelled from the spec), yielding the node id
and points. -/
structure NodePointsMsg where
  reply : String
  decoded : Except String (String × List Point)

def decodeErrNodePoints : String := "error decoding node points subject"

/-- Embeds `Store.handleNodePoints` (store.go): decode, write to the db,
process upstream, reply. -/
def handleNodePoints (st : StoreModel) (fuel : Nat) (msg : NodePointsMsg) :
    StoreModel × List Effect :=
  match msg.decoded with
  | .error _ => (st, replyEff msg.reply decodeErrNodePoints)
  | .ok (nodeID, points) =>
    match st.db.nodePoints nodeID points with
    | .error e => (st, replyEff msg.reply e)
    | .ok db2 =>
      let st2 := { st with db := db2 }
      let desc := match st2.db.node nodeID with
        | none => ""
        | some n => pointText n.points pointTypeDescription
      let effs := processPointsUpstream st2 fuel nodeID nodeID desc points
      (st2, effs ++ replyEff msg.reply "")

/-- Incoming `node.<parent>.<child>.points` message; `decoded` is the outcome
of `client.DecodeEdgePointsMsg` (modelled from the spec), yielding the node
id, parent id and points. -/
structure EdgePointsMsg where
  reply : String
  decoded : Except String (String × String × List Point)

def decodeErrEdgePoints : String := "error decoding edge points subject"

/-- Embeds `Store.handleEdgePoints` (store.go).  Note that the Go error
branch after the db write does not return, so it falls through to the
unconditional ACK reply. -/
def handleEdgePoints (st : StoreModel) (msg : EdgePointsMsg) :
    StoreModel × List Effect :=
  match msg.decoded with
  | .error _ => (st, replyEff msg.reply decodeErrEdgePoints)
  | .ok (nodeID, parentID, points) =>
    match st.db.edgePoints nodeID parentID points with
    | .error e => (st, replyEff msg.reply e ++ replyEff msg.reply "")
    | .ok db2 => ({ st with db := db2 }, replyEff msg.reply "")

/-- Incoming `node.<id>` read request: the subject split on `"."` and the
payload (a parent id or `"all"`). -/
structure NodeMsg where
  chunks : List String
  reply : String
  payload : String

/-- The `pb.NodesRequest` reply record. -/
structure NodeResp where
  nodes : List NodeEdge
  error : String
deriving DecidableEq, Repr

def errSubject : String := "error in message subject"

/-- Embeds `Store.handleNode` (store.go): read the node, and for an `"all"`
request remove deleted (tombstoned) nodes from the reply. -/
def handleNode (st : StoreModel) (msg : NodeMsg) : NodeResp :=
  if msg.chunks.length < 2 then { nodes := [], error := errSubject }
  else
    let parent := msg.payload
    let nodeID := (msg.chunks.get? 1).getD ""
    let res := st.db.nodeEdge nodeID parent
    let nodes := match res with | .ok ns => ns | .error _ => []
    let nodesRet := if parent == "all" then
        nodes.filter (fun n => !n.isTombstone)
      else nodes
    let errStr := match res with
      | .ok _ => ""
      | .error e =>
        if e == errDocumentNotFound then errDocumentNotFound
        else "error getting node: " ++ e
    { nodes := nodesRet, error := errStr }

/-- The decoded `pb.NatsRequest` parameters of a children request. -/
structure NatsRequest where
  typ : String
  includeDel : Bool
deriving DecidableEq, Repr

/-- Payload of a `node.<id>.children` request: absent, undecodable, or
decoded parameters (`proto.Unmarshal` outcome, modelled from the spec). -/
inductive ChildrenPayload where
  | empty
  | malformed
  | params (p : NatsRequest)

/-- Incoming `node.<id>.children` request. -/
structure ChildrenMsg where
  chunks : List String
  reply : String
  payload : ChildrenPayload

def errDecodeChildrenParams : String :=
  "error decoding node children request params"

/-- Embeds `Store.handleNodeChildren` (store.go): list direct descendants,
passing the request's type filter and `includeDel` through to the db. -/
def handleNodeChildren (st : StoreModel) (msg : ChildrenMsg) : NodeResp :=
  if msg.chunks.length < 3 then { nodes := [], error := errSubject }
  else
    let nodeID := (msg.chunks.get? 1).getD ""
    match msg.payload with
    | ChildrenPayload.malformed =>
      { nodes := [], error := errDecodeChildrenParams }
    | ChildrenPayload.empty =>
      { nodes := st.db.nodeDescendents nodeID "" false false, error := "" }
    | ChildrenPayload.params p =>
      { nodes := st.db.nodeDescendents nodeID p.typ false p.includeDel,
        error := "" }

/-- Payload of an `auth.user` request: empty, undecodable, or the decoded
credential points (`data.PbDecodePoints` outcome, modelled from the spec). -/
inductive AuthPayload where
  | empty
  | malformed
  | decoded (ps : List Point)

/-- Incoming `auth.user` request. -/
structure AuthMsg where
  reply : String
  payload : AuthPayload

/-- The JWT node appended to a successful auth reply. -/
def jwtNode (token : String) : NodeEdge :=
  ⟨"", nodeTypeJWT, "", [⟨0, pointTypeToken, "", 0, token, 0⟩], []⟩

/-- Embeds `Store.handleAuthUser` (store.go).  The result is the published
reply payload: `none` is the nil payload (`returnNothing`), `some nodes` the
encoded user nodes plus a JWT node. -/
def handleAuthUser (st : StoreModel) (msg : AuthMsg) :
    Option (List NodeEdge) :=
  match msg.payload with
  | AuthPayload.empty => none
  | AuthPayload.malformed => none
  | AuthPayload.decoded points =>
    match pointsFind points pointTypeEmail "" with
    | none => none
    | some emailP =>
      match pointsFind points pointTypePass "" with
      | none => none
      | some passP =>
        match st.db.userCheck emailP.text passP.text with
        | [] => none
        | first :: rest =>
          let user := nodeToUser first.toNode
          match st.newToken user.id with
          | .error _ => none
          | .ok token => some ((first :: rest) ++ [jwtNode token])

/-- Incoming `node.<id>.not` message; `decoded` is the outcome of
`data.PbDecodeNotification` (modelled from the spec). -/
structure NotMsg where
  chunks : List String
  decoded : Except String Notification

/-- The `findUsers` closure of `Store.handleNotification` (store.go): collect
the direct user-typed children of `id`, then recurse through every
non-tombstoned parent edge.  The Go recursion carries no cycle guard or
depth bound; `fuel` makes it total. -/
def findUsers (st : StoreModel) : Nat → String → List NodeEdge
  | 0, _ => []
  | fuel+1, id =>
    let nodes := st.db.nodeDescendents id nodeTypeUser false false
    let upIDs := st.db.edgeUp id false
    nodes ++ upIDs.foldr (fun e acc => findUsers st fuel e.up ++ acc) []

/-- The user loop of `Store.handleNotification` (store.go): users whose email
and phone are both empty are skipped; each other user gets one message with
the next fresh UUID, published on `node.<userID>.msg`.  `k` counts the UUIDs
drawn so far. -/
def notifyLoop (st : StoreModel) (notificationID : String)
    (ntf : Notification) : List NodeEdge → Nat → List Effect
  | [], _ => []
  | un :: rest, k =>
    let user := nodeToUser un.toNode
    if user.email != "" || user.phone != "" then
      Effect.sendMessage user.id
        ⟨st.newUUID k, user.id, un.parent, notificationID,
         user.email, user.phone, ntf.subject, ntf.message⟩
        :: notifyLoop st notificationID ntf rest (k+1)
    else notifyLoop st notificationID ntf rest k

/-- Embeds `Store.handleNotification` (store.go): for a user node target only
that node; otherwise collect users with `findUsers`; then run the user loop. -/
def handleNotification (st : StoreModel) (fuel : Nat) (msg : NotMsg) :
    List Effect :=
  if msg.chunks.length < 2 then []
  else
    let nodeID := (msg.chunks.get? 1).getD ""
    match msg.decoded with
    | .error _ => []
    | .ok ntf =>
      match st.db.node nodeID with
      | none => []
      | some node =>
        let userNodes :=
          if node.typ == nodeTypeUser then
            [node.toNodeEdge ⟨ntf.parent, "", []⟩]
          else findUsers st fuel nodeID
        notifyLoop st nodeID ntf userNodes 0

/-- Modelled from the spec: `data.RemoveDuplicateNodesID` — deduplicate by
node ID, keeping the first occurrence. -/
def removeDupGo : List NodeEdge → List String → List NodeEdge
  | [], _ => []
  | n :: rest, seen =>
    if seen.contains n.id then removeDupGo rest seen
    else n :: removeDupGo rest (n.id :: seen)

/-- Modelled from the spec: deduplicate a node list by node ID. -/
def removeDuplicateNodesID (l : List NodeEdge) : List NodeEdge :=
  removeDupGo l []

/-- Result of the `findSvcNodes` walk: the collected message-service nodes,
a trace of `(visited node, parent ids followed upward)` in call order, and
the final value of the shared `level` counter. -/
structure WalkState where
  svcNodes : List NodeEdge
  trace : List (String × List String)
  level : Nat
deriving DecidableEq, Repr

mutual
/-- The `findSvcNodes` closure of `Store.handleMessage` (store.go): collect
direct `msgService` children; at the first (source) level — `level == 0` —
follow only the message's `ParentID` upward, at deeper levels follow all
non-tombstoned parent edges.  `level` is a counter shared across the whole
recursion, incremented before descending, exactly as in the Go closure;
`fuel` bounds the unguarded recursion. -/
def findSvcNodes (st : StoreModel) (parentID : String)
    (fuel level : Nat) (id : String) : WalkState :=
  match fuel with
  | 0 => ⟨[], [], level⟩
  | f+1 =>
    let nodes := st.db.nodeDescendents id nodeTypeMsgService false false
    let upIDs := if level == 0 then [(⟨parentID, "", []⟩ : Edge)]
                 else st.db.edgeUp id false
    let w := walkList st parentID f (level + 1) upIDs
    ⟨nodes ++ w.svcNodes, (id, upIDs.map Edge.up) :: w.trace, w.level⟩
termination_by (fuel, 0)

/-- The upstream loop of `findSvcNodes`, threading the shared `level`
counter through the recursive calls in order. -/
def walkList (st : StoreModel) (parentID : String)
    (fuel level : Nat) (es : List Edge) : WalkState :=
  match es with
  | [] => ⟨[], [], level⟩
  | e :: rest =>
    let w1 := findSvcNodes st parentID fuel level e.up
    let w2 := walkList st parentID fuel w1.level rest
    ⟨w1.svcNodes ++ w2.svcNodes, w1.trace ++ w2.trace, w2.level⟩
termination_by (fuel, es.length + 1)
end

/-- Incoming `node.<id>.msg` message; `decoded` is the outcome of
`data.PbDecodeMessage` (modelled from the spec). -/
structure MsgMsg where
  chunks : List String
  decoded : Except String Message

/-- Embeds `Store.handleMessage` (store.go): walk for message services,
deduplicate them by node ID, and send an SMS through every twilio service
when the message has a phone number. -/
def handleMessage (st : StoreModel) (fuel : Nat) (msg : MsgMsg) :
    List Effect :=
  if msg.chunks.length < 2 then []
  else
    match msg.decoded with
    | .error _ => []
    | .ok m =>
      let nodeID := (msg.chunks.get? 1).getD ""
      let w := findSvcNodes st m.parentID fuel 0 nodeID
      let svcNodes := removeDuplicateNodesID w.svcNodes
      svcNodes.foldr
        (fun svcNode acc =>
          let svc := nodeToMsgService svcNode.toNode
          (if svc.service == pointValueTwilio && m.phone != "" then
             [Effect.smsSend m.phone m.message]
           else []) ++ acc) []

/-! Helper predicates used by the theorems below. -/

/-- No node in the list carries a set tombstone flag. -/
def noTombstones (l : List NodeEdge) : Bool :=
  l.all (fun n => !n.isTombstone)

/-- Every message published by the effect list targets `uid`. -/
def onlyTargets (effs : List Effect) (uid : String) : Bool :=
  effs.all (fun e => match e with
    | Effect.sendMessage u _ => u == uid
    | _ => true)

/-- How many messages the effect list publishes to user `uid`. -/
def countUserMsgs (effs : List Effect) (uid : String) : Nat :=
  (effs.filter (fun e => match e with
    | Effect.sendMessage u _ => u == uid
    | _ => false)).length

/-- Every trace entry followed exactly the non-tombstoned parent edges of
the node it visited. -/
def traceOk (st : StoreModel) (entries : List (String × List String)) : Bool :=
  entries.all (fun e => e.2 == (st.db.edgeUp e.1 false).map Edge.up)

/-- The user node has at least one non-empty contact field. -/
def hasContact (un : NodeEdge) : Bool :=
  (nodeToUser un.toNode).email != "" || (nodeToUser un.toNode).phone != ""

/-! ## C1 — rule action dispatch is edge-triggered -/

/-- C1: for every invocation of `processRuleNode`, actions are dispatched
only when `changed` is true: on an edge to active the `action` collection is
run and the `actionInactive` collection is reset; on an edge to inactive,
symmetrically, `actionInactive` is run and `action` is reset; when the
activation is unchanged nothing is dispatched or reset. -/
theorem rule_dispatch_edge_triggered :
    ∀ (st : StoreModel) (rn : NodeEdge) (src : String) (pts : List Point)
      (active changed : Bool) (e : Option String),
    st.ruleProcessPoints (ruleOf st rn) src pts = (active, changed, e) →
    processRuleNode st rn src pts =
      (if changed then
        (if active then
          [Effect.runActions (ruleOf st rn).id (ruleOf st rn).actions src,
           Effect.resetActions (ruleOf st rn).actionsInactive]
         else
          [Effect.runActions (ruleOf st rn).id
             (ruleOf st rn).actionsInactive src,
           Effect.resetActions (ruleOf st rn).actions])
       else []) := by
  intro st rn src pts a c e h
  simp only [processRuleNode, h]
  cases a <;> cases c <;> simp

/-- A concrete store: a rule node `r` with one action child `a` and one
inactive-action child `ai`, whose rule evaluation reports an edge to
active. -/
def cDb1 : Db :=
  ⟨[⟨"r", nodeTypeRule, []⟩, ⟨"a", nodeTypeAction, []⟩,
    ⟨"ai", nodeTypeActionInactive, []⟩],
   [⟨"r", "a", []⟩, ⟨"r", "ai", []⟩], none⟩

def cSt1 : StoreModel :=
  ⟨cDb1, fun _ _ _ => (true, true, none), fun _ => "", fun _ => .ok ""⟩

def cRuleNode : NodeEdge := ⟨"r", nodeTypeRule, "", [], []⟩

/-- Witness for C1 at a concrete store. -/
theorem rule_dispatch_edge_triggered_witness :
    cSt1.ruleProcessPoints (ruleOf cSt1 cRuleNode) "s" [] =
      (true, true, none) ∧
    processRuleNode cSt1 cRuleNode "s" [] =
      (if true then
        (if true then
          [Effect.runActions (ruleOf cSt1 cRuleNode).id
             (ruleOf cSt1 cRuleNode).actions "s",
           Effect.resetActions (ruleOf cSt1 cRuleNode).actionsInactive]
         else
          [Effect.runActions (ruleOf cSt1 cRuleNode).id
             (ruleOf cSt1 cRuleNode).actionsInactive "s",
           Effect.resetActions (ruleOf cSt1 cRuleNode).actions])
       else []) :=
  ⟨rfl, rule_dispatch_edge_triggered cSt1 cRuleNode "s" [] true true none rfl⟩

/-! ## C2 — decode failure on `node.<id>.points` mutates nothing -/

/-- C2: when the payload of a `node.<id>.points` message fails to decode, the
store replies to the sender with a non-empty error string and the store state
is completely unchanged — no point is written and no upstream processing
(rule evaluation, database forwarding) happens, the reply publish being the
only effect. -/
theorem node_points_decode_error_no_mutation :
    ∀ (st : StoreModel) (fuel : Nat) (msg : NodePointsMsg) (e : String),
    msg.decoded = .error e →
    handleNodePoints st fuel msg =
      (st, replyEff msg.reply decodeErrNodePoints) ∧
    decodeErrNodePoints ≠ "" := by
  intro st fuel msg e h
  refine ⟨?_, by decide⟩
  unfold handleNodePoints
  rw [h]

def cMsg2 : NodePointsMsg := ⟨"reply2", .error "bad payload"⟩

/-- Witness for C2 at a concrete store and message. -/
theorem node_points_decode_error_witness :
    cMsg2.decoded = Except.error "bad payload" ∧
    (handleNodePoints cSt1 3 cMsg2 =
       (cSt1, replyEff cMsg2.reply decodeErrNodePoints) ∧
     decodeErrNodePoints ≠ "") :=
  ⟨rfl, node_points_decode_error_no_mutation cSt1 3 cMsg2 "bad payload" rfl⟩

/-! ## C4 — a failed edge-point write replies twice (code bug) -/

/-- A store whose KV layer reports a write failure. -/
def cDb4 : Db := ⟨[], [], some "disk failure"⟩

def cSt4 : StoreModel :=
  ⟨cDb4, fun _ _ _ => (false, false, none), fun _ => "", fun _ => .ok ""⟩

/-- An edge-points message carrying a reply subject whose payload decodes
fine but whose db write fails. -/
def cMsg4 : EdgePointsMsg := ⟨"r4", .ok ("n", "p", [])⟩

/-- C4 fails on the code: the error branch of `handleEdgePoints` does not
return, so a failed write publishes the error reply *and* falls through to
the empty ACK reply — two replies, not exactly one. -/
theorem edge_points_double_reply :
    (handleEdgePoints cSt4 cMsg4).2 =
      [Effect.publish "r4" "disk failure", Effect.publish "r4" ""] ∧
    (handleEdgePoints cSt4 cMsg4).2.length = 2 ∧
    (handleEdgePoints cSt4 cMsg4).1 = cSt4 :=
  ⟨by decide, by decide, rfl⟩

/-! ## C5 — orphan repair during upstream propagation -/

/-- C5: when upstream propagation is processing the source node itself, the
node is of type `device`, and every parent edge is tombstoned, the store
emits a tombstone-clearing edge point — restoring the first (most recent)
parent edge, or attaching the node to the root sentinel parent `"none"` when
it has no parent edges at all — after the rule/database-sink work and before
the recursion through the parent edges continues the upward walk. -/
theorem orphan_repair :
    ∀ (st : StoreModel) (fuel : Nat) (nid nodeDesc : String)
      (pts : List Point) (n : Node),
    st.db.node nid = some n →
    n.typ = nodeTypeDevice →
    ((st.db.edgeUp nid true).all (fun e => e.isTombstone)) = true →
    processPointsUpstream st (fuel+1) nid nid nodeDesc pts =
      processRules st (st.db.nodeDescendents nid nodeTypeRule false false)
        nid pts
      ++ (st.db.nodeDescendents nid nodeTypeDb false false).map
           (fun dn => Effect.influxWrite dn.id nid nodeDesc pts)
      ++ (match st.db.edgeUp nid true with
          | [] => [Effect.sendEdgePoint nid "none" tombstoneClearPoint]
          | e :: _ => [Effect.sendEdgePoint e.down e.up tombstoneClearPoint])
      ++ (st.db.edgeUp nid true).foldr
           (fun e acc =>
             processPointsUpstream st fuel e.up nid nodeDesc pts ++ acc)
           [] := by
  intro st fuel nid nodeDesc pts n hn htyp hts
  have hall := List.all_eq_true.mp hts
  have hany : (st.db.edgeUp nid true).any (fun e => !e.isTombstone) = false := by
    rw [List.any_eq_false]
    intro e he
    simp [hall e he]
  simp only [processPointsUpstream, hn, htyp, hany, beq_self_eq_true,
    if_true, Bool.false_eq_true, if_false]

/-- A concrete store: device `d` whose only parent edge (to `p`) is
tombstoned. -/
def cDb5 : Db :=
  ⟨[⟨"d", nodeTypeDevice, []⟩, ⟨"p", nodeTypeGroup, []⟩],
   [⟨"p", "d", [⟨1, pointTypeTombstone, "", 1, "", 0⟩]⟩], none⟩

def cSt5 : StoreModel :=
  ⟨cDb5, fun _ _ _ => (false, false, none), fun _ => "", fun _ => .ok ""⟩

/-- Witness for C5: the orphaned device's tombstoned edge to `p` is
restored. -/
theorem orphan_repair_witness :
    cSt5.db.node "d" = some ⟨"d", nodeTypeDevice, []⟩ ∧
    ((cSt5.db.edgeUp "d" true).all (fun e => e.isTombstone)) = true ∧
    processPointsUpstream cSt5 1 "d" "d" "" [] =
      processRules cSt5 (cSt5.db.nodeDescendents "d" nodeTypeRule false false)
        "d" []
      ++ (cSt5.db.nodeDescendents "d" nodeTypeDb false false).map
           (fun dn => Effect.influxWrite dn.id "d" "" [])
      ++ (match cSt5.db.edgeUp "d" true with
          | [] => [Effect.sendEdgePoint "d" "none" tombstoneClearPoint]
          | e :: _ => [Effect.sendEdgePoint e.down e.up tombstoneClearPoint])
      ++ (cSt5.db.edgeUp "d" true).foldr
           (fun e acc => processPointsUpstream cSt5 0 e.up "d" "" [] ++ acc)
           [] :=
  ⟨by decide, by decide,
   orphan_repair cSt5 0 "d" "" [] ⟨"d", nodeTypeDevice, []⟩ (by decide) rfl
     (by decide)⟩

/-! ## C6 — default enumeration hides tombstoned entities -/

/-- Membership in a foldr that appends a function of each element. -/
theorem mem_foldr_append {α β : Type} (f : α → List β) (l : List α) (b : β) :
    b ∈ l.foldr (fun x acc => f x ++ acc) [] ↔ ∃ x ∈ l, b ∈ f x := by
  induction l with
  | nil => simp
  | cons h t ih => simp [ih]

/-- Every node `descHelper` returns with `includeTombstone = false` has a
clear tombstone flag. -/
theorem descHelper_no_ts :
    ∀ (db : Db) (fuel : Nat) (id typ : String) (recursive : Bool)
      (n : NodeEdge),
    n ∈ descHelper db fuel id typ recursive false → n.isTombstone = false := by
  intro db fuel
  induction fuel with
  | zero => intro id typ recursive n h; simp [descHelper] at h
  | succ f ih =>
    intro id typ recursive n h
    rw [descHelper, mem_foldr_append] at h
    obtain ⟨e, _, hn⟩ := h
    rcases hnode : db.node e.down with _ | nd
    · rw [hnode] at hn; simp at hn
    · rw [hnode] at hn
      simp only [List.mem_append] at hn
      rcases hn with hn | hn
      · rcases hkeep : ((typ == "" || nd.typ == typ)
          && (false || !(nd.toNodeEdge e).isTombstone)) with _ | _
        · rw [hkeep] at hn; simp at hn
        · rw [hkeep] at hn
          simp at hn
          subst hn
          have := (Bool.and_eq_true _ _).mp hkeep
          simpa using this.2
      · rcases recursive with _ | _
        · simp at hn
        · exact ih e.down typ true n (by simpa using hn)

/-- C6: a `node.<id>` read whose payload is `"all"` reveals no node whose
tombstone flag is set, and a `node.<id>.children` request whose `includeDel`
parameter is false returns no tombstoned node. -/
theorem tombstone_hidden_default :
    ∀ (st : StoreModel) (m1 : NodeMsg) (m2 : ChildrenMsg) (p : NatsRequest),
    m1.payload = "all" →
    m2.payload = ChildrenPayload.params p →
    p.includeDel = false →
    noTombstones (handleNode st m1).nodes = true ∧
    noTombstones (handleNodeChildren st m2).nodes = true := by
  intro st m1 m2 p h1 h2 h3
  constructor
  · unfold handleNode noTombstones
    split
    · simp
    · simp only [h1, beq_self_eq_true, if_true]
      rw [List.all_eq_true]
      intro x hx
      exact (List.mem_filter.mp hx).2
  · unfold handleNodeChildren noTombstones
    split
    · simp
    · rw [h2]
      simp only [h3]
      rw [List.all_eq_true]
      intro x hx
      have := descHelper_no_ts st.db _ _ _ _ x (by
        simpa [Db.nodeDescendents] using hx)
      simp [this]

/-- A concrete store: group `root6` with a tombstoned user child `c6`. -/
def cDb6 : Db :=
  ⟨[⟨"root6", nodeTypeGroup, []⟩, ⟨"c6", nodeTypeUser, []⟩],
   [⟨"root6", "c6", [⟨1, pointTypeTombstone, "", 1, "", 0⟩]⟩], none⟩

def cSt6 : StoreModel :=
  ⟨cDb6, fun _ _ _ => (false, false, none), fun _ => "", fun _ => .ok ""⟩

def cM61 : NodeMsg := ⟨["node", "c6"], "", "all"⟩

def cM62 : ChildrenMsg :=
  ⟨["node", "root6", "children"], "", ChildrenPayload.params ⟨"", false⟩⟩

/-- Witness for C6 at a concrete store containing a tombstoned node. -/
theorem tombstone_hidden_default_witness :
    noTombstones (handleNode cSt6 cM61).nodes = true ∧
    noTombstones (handleNodeChildren cSt6 cM62).nodes = true :=
  tombstone_hidden_default cSt6 cM61 cM62 ⟨"", false⟩ rfl rfl rfl

/-! ## C3 — notification fan-out does not deduplicate users -/

/-- Counting step: a published message contributes one exactly when it
targets `uid`. -/
theorem countUserMsgs_cons_send :
    ∀ (u : String) (m : Message) (effs : List Effect) (uid : String),
    countUserMsgs (Effect.sendMessage u m :: effs) uid =
      (if (u == uid) = true then 1 else 0) + countUserMsgs effs uid := by
  intro u m effs uid
  simp only [countUserMsgs, List.filter_cons]
  split
  · simp [Nat.add_comm]
  · simp

/-- The user loop publishes one message per occurrence of a user in the
collected list: the message count for `uid` equals the number of occurrences
of `uid` (with a contact field) in the list. -/
theorem countUserMsgs_notifyLoop :
    ∀ (st : StoreModel) (nid : String) (ntf : Notification)
      (l : List NodeEdge) (k : Nat) (uid : String),
    countUserMsgs (notifyLoop st nid ntf l k) uid =
      (l.filter (fun un => un.id == uid && hasContact un)).length := by
  intro st nid ntf l
  induction l with
  | nil => intro k uid; simp [notifyLoop, countUserMsgs]
  | cons un rest ih =>
    intro k uid
    rcases hc : hasContact un with _ | _
    · have hc' : ((nodeToUser un.toNode).email != ""
          || (nodeToUser un.toNode).phone != "") = false := hc
      simp only [notifyLoop, hc', Bool.false_eq_true, if_false]
      rw [ih k uid, List.filter_cons]
      simp [hc]
    · have hc' : ((nodeToUser un.toNode).email != ""
          || (nodeToUser un.toNode).phone != "") = true := hc
      simp only [notifyLoop, hc', if_true]
      rw [countUserMsgs_cons_send, ih (k+1) uid, List.filter_cons]
      rcases hu : (un.id == uid) with _ | _
      · simp [hu, hc, nodeToUser, NodeEdge.toNode]
      · simp [hu, hc, nodeToUser, NodeEdge.toNode, Nat.add_comm]

/-- C3 amended: `handleNotification` publishes one `node.<userID>.msg`
message per occurrence of the user in the collected list — the collection is
not deduplicated, so a user reachable via several parent paths receives one
message per path. -/
theorem notification_fanout_per_occurrence :
    ∀ (st : StoreModel) (fuel : Nat) (msg : NotMsg) (ntf : Notification)
      (node : Node) (uid : String),
    2 ≤ msg.chunks.length →
    msg.decoded = .ok ntf →
    st.db.node ((msg.chunks.get? 1).getD "") = some node →
    (node.typ == nodeTypeUser) = false →
    countUserMsgs (handleNotification st fuel msg) uid =
      ((findUsers st fuel ((msg.chunks.get? 1).getD "")).filter
        (fun un => un.id == uid && hasContact un)).length := by
  intro st fuel msg ntf node uid hlen hdec hnode htyp
  unfold handleNotification
  rw [if_neg (by omega)]
  simp only [hdec, hnode, htyp, Bool.false_eq_true, if_false]
  exact countUserMsgs_notifyLoop st _ ntf _ 0 uid

/-- A diamond store: notifying group `T`, whose parents `A` and `B` both also
contain the user `U`, collects `U` twice. -/
def cDb3 : Db :=
  ⟨[⟨"T", nodeTypeGroup, []⟩, ⟨"A", nodeTypeGroup, []⟩,
    ⟨"B", nodeTypeGroup, []⟩,
    ⟨"U", nodeTypeUser, [⟨1, pointTypeEmail, "", 0, "u@example.com", 0⟩]⟩],
   [⟨"A", "T", []⟩, ⟨"B", "T", []⟩, ⟨"A", "U", []⟩, ⟨"B", "U", []⟩], none⟩

def cSt3 : StoreModel :=
  ⟨cDb3, fun _ _ _ => (false, false, none), fun _ => "uu", fun _ => .ok ""⟩

def cMsg3 : NotMsg := ⟨["node", "T", "not"], .ok ⟨"n1", "A", "subj", "body"⟩⟩

/-- Counterexample to C3 as stated: user `U`, reachable from `T` via the two
parent paths through `A` and `B`, receives two messages for one
notification — more than "at most one". -/
theorem notification_fanout_dedup_cex :
    countUserMsgs (handleNotification cSt3 3 cMsg3) "U" = 2 ∧
    ¬ countUserMsgs (handleNotification cSt3 3 cMsg3) "U" ≤ 1 :=
  ⟨by decide, by decide⟩

/-- Witness for the amended C3 at the diamond store. -/
theorem notification_fanout_per_occurrence_witness :
    countUserMsgs (handleNotification cSt3 3 cMsg3) "U" =
      ((findUsers cSt3 3 "T").filter
        (fun un => un.id == "U" && hasContact un)).length :=
  notification_fanout_per_occurrence cSt3 3 cMsg3 ⟨"n1", "A", "subj", "body"⟩
    ⟨"T", nodeTypeGroup, []⟩ "U" (by decide) rfl (by decide) (by decide)

/-! ## C7 — notifying a user node targets only that user -/

/-- The user loop over a single user node only ever messages that node. -/
theorem onlyTargets_single :
    ∀ (st : StoreModel) (nid : String) (ntf : Notification) (un : NodeEdge)
      (k : Nat),
    onlyTargets (notifyLoop st nid ntf [un] k) un.id = true := by
  intro st nid ntf un k
  rcases hc : ((nodeToUser un.toNode).email != ""
      || (nodeToUser un.toNode).phone != "") with _ | _
  · simp [notifyLoop, hc, onlyTargets]
  · simp [notifyLoop, hc, onlyTargets, nodeToUser, NodeEdge.toNode]

/-- C7: for a notification whose target node has type `user`, the downward
collection and upward walk are skipped — the user list is just that node —
and every message published by the handler targets that single user. -/
theorem user_notification_single_target :
    ∀ (st : StoreModel) (fuel : Nat) (msg : NotMsg) (ntf : Notification)
      (node : Node),
    2 ≤ msg.chunks.length →
    msg.decoded = .ok ntf →
    st.db.node ((msg.chunks.get? 1).getD "") = some node →
    (node.typ == nodeTypeUser) = true →
    handleNotification st fuel msg =
      notifyLoop st ((msg.chunks.get? 1).getD "") ntf
        [node.toNodeEdge ⟨ntf.parent, "", []⟩] 0 ∧
    onlyTargets (handleNotification st fuel msg) node.id = true := by
  intro st fuel msg ntf node hlen hdec hnode htyp
  have h1 : handleNotification st fuel msg =
      notifyLoop st ((msg.chunks.get? 1).getD "") ntf
        [node.toNodeEdge ⟨ntf.parent, "", []⟩] 0 := by
    unfold handleNotification
    rw [if_neg (by omega)]
    simp only [hdec, hnode, htyp, if_true]
  refine ⟨h1, ?_⟩
  rw [h1]
  exact onlyTargets_single st _ ntf _ 0

/-- A store holding a single user node with an email contact. -/
def cDb7 : Db :=
  ⟨[⟨"u7", nodeTypeUser, [⟨1, pointTypeEmail, "", 0, "a@b", 0⟩]⟩], [], none⟩

def cSt7 : StoreModel :=
  ⟨cDb7, fun _ _ _ => (false, false, none), fun _ => "uu", fun _ => .ok ""⟩

def cMsg7 : NotMsg := ⟨["node", "u7", "not"], .ok ⟨"n7", "P", "s", "m"⟩⟩

/-- Witness for C7 at a concrete user-node notification. -/
theorem user_notification_single_target_witness :
    handleNotification cSt7 2 cMsg7 =
      notifyLoop cSt7 "u7" ⟨"n7", "P", "s", "m"⟩
        [Node.toNodeEdge
          ⟨"u7", nodeTypeUser, [⟨1, pointTypeEmail, "", 0, "a@b", 0⟩]⟩
          ⟨"P", "", []⟩] 0 ∧
    onlyTargets (handleNotification cSt7 2 cMsg7) "u7" = true :=
  user_notification_single_target cSt7 2 cMsg7 ⟨"n7", "P", "s", "m"⟩
    ⟨"u7", nodeTypeUser, [⟨1, pointTypeEmail, "", 0, "a@b", 0⟩]⟩
    (by decide) rfl (by decide) (by decide)

/-! ## C8 — the message-service walk and its level counter -/

/-- The shared level counter threaded through the walk never decreases. -/
theorem walk_level_mono :
    ∀ (st : StoreModel) (pid : String) (fuel : Nat),
      (∀ (level : Nat) (id : String),
        level ≤ (findSvcNodes st pid fuel level id).level) ∧
      (∀ (level : Nat) (es : List Edge),
        level ≤ (walkList st pid fuel level es).level) := by
  intro st pid fuel
  induction fuel with
  | zero =>
    have hf : ∀ (level : Nat) (id : String),
        level ≤ (findSvcNodes st pid 0 level id).level := by
      intro level id; simp [findSvcNodes]
    refine ⟨hf, ?_⟩
    intro level es
    induction es generalizing level with
    | nil => simp [walkList]
    | cons e rest ih =>
      rw [walkList]
      exact le_trans (hf level e.up) (ih _)
  | succ f ihf =>
    have hf : ∀ (level : Nat) (id : String),
        level ≤ (findSvcNodes st pid (f+1) level id).level := by
      intro level id
      rw [findSvcNodes]
      exact le_trans (Nat.le_succ level) (ihf.2 (level+1) _)
    refine ⟨hf, ?_⟩
    intro level es
    induction es generalizing level with
    | nil => simp [walkList]
    | cons e rest ih =>
      rw [walkList]
      exact le_trans (hf level e.up) (ih _)

/-- Lemma: `traceOk` distributes over appended traces. -/
theorem traceOk_append (st : StoreModel)
    (a b : List (String × List String)) :
    traceOk st (a ++ b) = (traceOk st a && traceOk st b) := by
  simp [traceOk, List.all_append]

/-- Lemma: `traceOk` on a cons separates the head check. -/
theorem traceOk_cons (st : StoreModel) (x : String × List String)
    (l : List (String × List String)) :
    traceOk st (x :: l) =
      ((x.2 == (st.db.edgeUp x.1 false).map Edge.up) && traceOk st l) := by
  simp [traceOk]

/-- The upstream loop preserves trace correctness of deeper levels. -/
theorem walkList_trace_ok_of (st : StoreModel) (pid : String) (fuel : Nat)
    (hf : ∀ (level : Nat) (id : String), level ≠ 0 →
      traceOk st (findSvcNodes st pid fuel level id).trace = true) :
    ∀ (level : Nat) (es : List Edge), level ≠ 0 →
      traceOk st (walkList st pid fuel level es).trace = true := by
  intro level es
  induction es generalizing level with
  | nil => intro hl; simp [walkList, traceOk]
  | cons e rest ih =>
    intro hl
    simp only [walkList, traceOk_append, Bool.and_eq_true]
    constructor
    · exact hf level e.up hl
    · have h1 : level ≤ (findSvcNodes st pid fuel level e.up).level :=
        (walk_level_mono st pid fuel).1 level e.up
      have h2 : (findSvcNodes st pid fuel level e.up).level ≠ 0 := by
        intro h0
        rw [h0] at h1
        exact hl (Nat.le_zero.mp h1)
      exact ih _ h2

/-- Every entry of the walk's trace at a non-source level followed exactly
the non-tombstoned parent edges of the node it visited. -/
theorem walk_trace_ok :
    ∀ (st : StoreModel) (pid : String) (fuel : Nat),
      (∀ (level : Nat) (id : String), level ≠ 0 →
        traceOk st (findSvcNodes st pid fuel level id).trace = true) ∧
      (∀ (level : Nat) (es : List Edge), level ≠ 0 →
        traceOk st (walkList st pid fuel level es).trace = true) := by
  intro st pid fuel
  induction fuel with
  | zero =>
    have hf : ∀ (level : Nat) (id : String), level ≠ 0 →
        traceOk st (findSvcNodes st pid 0 level id).trace = true := by
      intro level id _; simp [findSvcNodes, traceOk]
    exact ⟨hf, walkList_trace_ok_of st pid 0 hf⟩
  | succ f ihf =>
    have hf : ∀ (level : Nat) (id : String), level ≠ 0 →
        traceOk st (findSvcNodes st pid (f+1) level id).trace = true := by
      intro level id hl
      have hb : (level == 0) = false := by
        simpa using hl
      simp only [findSvcNodes, hb, Bool.false_eq_true, if_false]
      rw [traceOk_cons]
      simp only [beq_self_eq_true, Bool.true_and]
      exact ihf.2 (level+1) _ (Nat.succ_ne_zero level)
    exact ⟨hf, walkList_trace_ok_of st pid (f+1) hf⟩

/-- C8: in the message-service walk `handleMessage` performs (starting at the
subject node with the message's `ParentID`), the first (source) level follows
only the single parent recorded in the message's `ParentID`, while every
deeper trace entry follows exactly the non-tombstoned parent edges of the
node it visits. -/
theorem message_walk_parents :
    ∀ (st : StoreModel) (pid : String) (fuel : Nat) (id : String),
    (findSvcNodes st pid (fuel+1) 0 id).trace =
      (id, [pid]) ::
        (walkList st pid fuel 1 [(⟨pid, "", []⟩ : Edge)]).trace ∧
    traceOk st (findSvcNodes st pid (fuel+1) 0 id).trace.tail = true := by
  intro st pid fuel id
  have hstep : (findSvcNodes st pid (fuel+1) 0 id).trace =
      (id, [pid]) ::
        (walkList st pid fuel 1 [(⟨pid, "", []⟩ : Edge)]).trace := by
    simp [findSvcNodes]
  refine ⟨hstep, ?_⟩
  rw [hstep]
  simp only [List.tail_cons]
  exact (walk_trace_ok st pid fuel).2 1 _ (Nat.one_ne_zero)

/-! ## C9 — failed auth replies with the empty payload -/

/-- The failure conditions of C9: empty payload, undecodable payload, missing
email or password point, or credentials matching no user. -/
def authRejects (st : StoreModel) (msg : AuthMsg) : Bool :=
  match msg.payload with
  | AuthPayload.empty => true
  | AuthPayload.malformed => true
  | AuthPayload.decoded ps =>
    match pointsFind ps pointTypeEmail "", pointsFind ps pointTypePass "" with
    | none, _ => true
    | some _, none => true
    | some e, some p => (st.db.userCheck e.text p.text).isEmpty

/-- C9: whenever the `auth.user` payload is empty, fails to decode, lacks an
email or password point, or matches no user, the reply payload is nil — no
error text, user data or token is disclosed. -/
theorem auth_failure_empty_reply :
    ∀ (st : StoreModel) (msg : AuthMsg),
    authRejects st msg = true → handleAuthUser st msg = none := by
  intro st msg h
  rcases hp : msg.payload with _ | _ | ps
  · simp only [handleAuthUser, hp]
  · simp only [handleAuthUser, hp]
  · simp only [handleAuthUser, hp]
    rw [authRejects, hp] at h
    rcases he : pointsFind ps pointTypeEmail "" with _ | ep
    · simp only [he]
    · rcases hpp : pointsFind ps pointTypePass "" with _ | pp
      · simp only [he, hpp]
      · simp only [he, hpp] at h ⊢
        rcases hu : st.db.userCheck ep.text pp.text with _ | ⟨first, rest⟩
        · simp only [hu]
        · rw [hu] at h
          simp [List.isEmpty] at h

def cMsg9 : AuthMsg := ⟨"r9", AuthPayload.empty⟩

/-- Witness for C9: an empty `auth.user` payload gets the nil reply. -/
theorem auth_failure_empty_reply_witness :
    authRejects cSt1 cMsg9 = true ∧ handleAuthUser cSt1 cMsg9 = none :=
  ⟨rfl, auth_failure_empty_reply cSt1 cMsg9 rfl⟩

/-! ## C10 — users without contact fields are silently skipped -/

/-- The message synthesized for user-node occurrence `un` with the `k`-th
fresh UUID. -/
def mkNotifyMsg (st : StoreModel) (nid : String) (ntf : Notification)
    (un : NodeEdge) (k : Nat) : Message :=
  let user := nodeToUser un.toNode
  ⟨st.newUUID k, user.id, un.parent, nid, user.email, user.phone,
   ntf.subject, ntf.message⟩

/-- C10: the fan-out loop skips every collected user whose email and phone
are both empty — synthesizing no message record and publishing nothing —
while each user with a contact field gets exactly one message, whose id is
drawn from a distinct (fresh) invocation of the UUID generator: the `i`-th
surviving user uses the `k+i`-th UUID. -/
theorem notification_contact_filter :
    ∀ (st : StoreModel) (nid : String) (ntf : Notification)
      (l : List NodeEdge) (k : Nat),
    notifyLoop st nid ntf l k =
      ((l.filter hasContact).enumFrom k).map
        (fun p => Effect.sendMessage (nodeToUser p.2.toNode).id
          (mkNotifyMsg st nid ntf p.2 p.1)) := by
  intro st nid ntf l
  induction l with
  | nil => intro k; simp [notifyLoop]
  | cons un rest ih =>
    intro k
    rcases hc : hasContact un with _ | _
    · have hc' : ((nodeToUser un.toNode).email != ""
          || (nodeToUser un.toNode).phone != "") = false := hc
      simp only [notifyLoop, hc', Bool.false_eq_true, if_false]
      rw [ih k, List.filter_cons]
      simp [hc]
    · have hc' : ((nodeToUser un.toNode).email != ""
          || (nodeToUser un.toNode).phone != "") = true := hc
      simp only [notifyLoop, hc', if_true]
      rw [ih (k+1), List.filter_cons]
      simp only [hc, if_true]
      rfl

end SimpleIoT
